import Mathlib

/-!
Verification of the `ee545_robot_car` reactive local planner
(`lab1/src/laser_wanderer.py` and `lab1/src/car_laser_wanderer.py`).

Shallow embedding conventions:
* Python floats are modelled as real numbers (`ℝ`); the planner code is
  trigonometric, so its functions are modelled over `ℝ` and are therefore
  noncomputable in Lean.
* A laser range reading is `Option ℝ`: `some d` is a finite reading with
  value `d`, `none` is a NaN/Infinity reading (`np.isfinite` returns false).
* Python list indexing which can raise `IndexError`, and `np.argmin` which
  raises `ValueError` on an empty array, are modelled with `Option`; a
  function returning `none` models the callback aborting with an exception
  (in particular no drive command is published).
* The ROS wall clock polled by `wander_cb` is modelled by a function
  `elapsed : ℕ → ℝ` giving the value of `rospy.Time.now().to_sec() - start`
  at the k-th evaluation of the while-loop condition (k is also the current
  trajectory depth, since each loop pass increments the depth once).

The two source files share their class layout, `wander_cb` loop and
`kinematic_model_step` verbatim; they differ only in `compute_cost`
(single-ray policy in `car_laser_wanderer.py`, footprint-interval policy in
`laser_wanderer.py`).  The shared loop is embedded once, parametrised by the
cost function, and instantiated for each file.
-/

open scoped Classical

noncomputable section

/-- A robot pose `[x, y, theta]`. -/
structure Pose where
  x : ℝ
  y : ℝ
  theta : ℝ

/-- A control `[v, delta, dt]`. -/
structure Control where
  v : ℝ
  delta : ℝ
  dt : ℝ

/-- The fields of a `sensor_msgs/LaserScan` used by the planner.
A `none` entry of `ranges` is a NaN/Infinity beam. -/
structure Scan where
  angle_min : ℝ
  angle_max : ℝ
  angle_increment : ℝ
  ranges : List (Option ℝ)

/-- An `AckermannDriveStamped` command as far as the planner fills it in. -/
structure DriveCmd where
  steering_angle : ℝ
  speed : ℝ

/-- The state stored by the `LaserWanderer` constructors of both files.
`rollouts` is the NxTx3 numpy array (modelled as an index function together
with its shape `N`, `T`), `deltas` the N-dimensional steering-angle array.
`car_length`, `car_width` are only read by the footprint-interval policy of
`laser_wanderer.py`; `detection_thresh` is stored by that file's constructor
but its `compute_cost` reads the module constant `DETECTION_THRESH` instead. -/
structure Wanderer where
  N : ℕ
  T : ℕ
  rollouts : ℕ → ℕ → Pose
  deltas : ℕ → ℝ
  speed : ℝ
  compute_time : ℝ
  laser_offset : ℝ
  car_length : ℝ
  car_width : ℝ
  detection_thresh : ℝ

/-- `MAX_PENALTY = 10000`, identical in both files. -/
def MAX_PENALTY : ℝ := 10000

/-- `DETECTION_THRESH = 0.5`, module constant of `laser_wanderer.py`. -/
def DETECTION_THRESH : ℝ := 1 / 2

/-- Python's `int(r)` applied to a float: truncation toward zero. -/
def pyInt (r : ℝ) : ℤ :=
  if 0 ≤ r then ⌊r⌋ else ⌈r⌉

/-- Python list indexing `l[i]`: negative indices wrap once from the end,
any other out-of-range index raises `IndexError` (modelled as `none`). -/
def pyIndex {α : Type} (l : List α) (i : ℤ) : Option α :=
  if 0 ≤ i then l.get? i.toNat
  else if 0 ≤ i + l.length then l.get? (i + l.length).toNat
  else none

/-- `np.arange(a, b + 1)` over integers: the list `[a, a+1, ..., b]`
(empty when `b < a`). -/
def intRange (a b : ℤ) : List ℤ :=
  (List.range (b + 1 - a).toNat).map (fun k => a + (k : ℤ))

/-- `np.argmin` over a 1-D float array: index of the first occurrence of the
minimum; raises `ValueError` (modelled `none`) on an empty array. -/
def np_argmin : List ℝ → Option ℕ
  | [] => none
  | x :: xs =>
    match np_argmin xs with
    | none => some 0
    | some j => if x ≤ xs.getD j 0 then some 0 else some (j + 1)

/-- `kinematic_model_step(pose, control, car_length)`, identical in both
source files: bicycle-model step with slip angle
`B = atan(0.5 * tan(delta))`, the asymmetric angle wrap of the source
(`+2*pi` below zero but only `-pi` above `2*pi`) reproduced verbatim. -/
def kinematic_model_step (pose : Pose) (control : Control) (car_length : ℝ) : Pose :=
  let B := Real.arctan (0.5 * Real.tan control.delta)
  let theta_raw := pose.theta + control.v / car_length * Real.sin (2 * B) * control.dt
  let theta_next :=
    if theta_raw < 0 then 2 * Real.pi + theta_raw
    else if theta_raw > 2 * Real.pi then theta_raw - Real.pi
    else theta_raw
  if B = 0 then
    { x := pose.x + control.v * Real.cos theta_next * control.dt
      y := pose.y + control.v * Real.sin theta_next * control.dt
      theta := theta_next }
  else
    { x := pose.x + car_length / Real.sin (2 * B) * (Real.sin theta_next - Real.sin pose.theta)
      y := pose.y - car_length / Real.sin (2 * B) * (Real.cos theta_next - Real.cos pose.theta)
      theta := theta_next }

/-- `LaserWanderer._compute_pose_angle` of `car_laser_wanderer.py`:
the bearing is the ONE-argument arctangent of the coordinate ratio,
`np.arctan(delta_y / delta_x)`. -/
def CarLaserWanderer.posangle (current_pose rollout_pose : Pose) : ℝ :=
  let delta_x := rollout_pose.x - current_pose.x
  let delta_y := rollout_pose.y - current_pose.y
  Real.arctan (delta_y / delta_x)

/-- `LaserWanderer.compute_cost` of `car_laser_wanderer.py` (single-ray
policy).  `none` models the `IndexError` raised by `ranges[angle_index]`
when the computed beam index is out of range. -/
def CarLaserWanderer.compute_cost (lw : Wanderer) (delta : ℝ) (rollout_pose : Pose)
    (laser_msg : Scan) : Option ℝ :=
  let cost := |delta|
  let current_pose : Pose := ⟨0, 0, 0⟩
  let rollout_pose_angle := CarLaserWanderer.posangle current_pose rollout_pose
  let rollout_pose_distance :=
    Real.sqrt ((current_pose.x - rollout_pose.x) ^ 2 + (current_pose.y - rollout_pose.y) ^ 2)
  if rollout_pose_angle < laser_msg.angle_min ∨ rollout_pose_angle > laser_msg.angle_max then
    some (cost + MAX_PENALTY)
  else
    match pyIndex laser_msg.ranges
        (pyInt ((rollout_pose_angle - laser_msg.angle_min) / laser_msg.angle_increment)) with
    | none => none
    | some none => some cost
    | some (some laser_ray_dist) =>
      if rollout_pose_distance > laser_ray_dist - |lw.laser_offset| then some (cost + MAX_PENALTY)
      else some cost

/-- `LaserWanderer.rollout_to_laser_angle` of `laser_wanderer.py`: projects
the front-left and front-right footprint corners
`(car_length/2, ±car_width/2)` through the pose transform
`compose_matrix(translate=(x,y,0), angles=(0,0,theta))` and takes the
ONE-argument arctangent `np.arctan(y / x)` of each transformed corner. -/
def LaserWanderer.rollout_to_laser_angle (lw : Wanderer) (roll_pose : Pose) : ℝ × ℝ :=
  let flx := Real.cos roll_pose.theta * (lw.car_length / 2)
    - Real.sin roll_pose.theta * (lw.car_width / 2) + roll_pose.x
  let fly := Real.sin roll_pose.theta * (lw.car_length / 2)
    + Real.cos roll_pose.theta * (lw.car_width / 2) + roll_pose.y
  let frx := Real.cos roll_pose.theta * (lw.car_length / 2)
    - Real.sin roll_pose.theta * (-(lw.car_width / 2)) + roll_pose.x
  let fry := Real.sin roll_pose.theta * (lw.car_length / 2)
    + Real.cos roll_pose.theta * (-(lw.car_width / 2)) + roll_pose.y
  (Real.arctan (fly / flx), Real.arctan (fry / frx))

/-- The beam-classification loop of `LaserWanderer.compute_cost` in
`laser_wanderer.py`: for each index, read `ranges[idx]` (possible
`IndexError`, modelled `none`) and count it as too close when the reading is
finite and `rollout_pose_distance > reading - |laser_offset|`. -/
def LaserWanderer.countTooClose (lw : Wanderer) (laser_msg : Scan)
    (rollout_pose_distance : ℝ) : List ℤ → Option ℕ
  | [] => some 0
  | idx :: rest =>
    match pyIndex laser_msg.ranges idx with
    | none => none
    | some r =>
      match LaserWanderer.countTooClose lw laser_msg rollout_pose_distance rest with
      | none => none
      | some c =>
        match r with
        | none => some c
        | some laser_ray_dist =>
          if rollout_pose_distance > laser_ray_dist - |lw.laser_offset| then some (c + 1)
          else some c

/-- The tail of `LaserWanderer.compute_cost` in `laser_wanderer.py`:
`hazard_prop = too_close_count / np.size(angle_index)`, then `MAX_PENALTY`
when a single checked beam is too close, `MAX_PENALTY` when
`hazard_prop >= DETECTION_THRESH`, otherwise the graded penalty
`hazard_prop * 30`. -/
def LaserWanderer.hazard_update (cost : ℝ) (k too_close_count : ℕ) : ℝ :=
  let hazard_prop : ℝ := (too_close_count : ℝ) / (k : ℝ)
  if k = 1 ∧ 0 < too_close_count then cost + MAX_PENALTY
  else if hazard_prop ≥ DETECTION_THRESH then cost + MAX_PENALTY
  else cost + hazard_prop * 30

/-- `LaserWanderer.compute_cost` of `laser_wanderer.py` (footprint-interval
policy). -/
def LaserWanderer.compute_cost (lw : Wanderer) (delta : ℝ) (rollout_pose : Pose)
    (laser_msg : Scan) : Option ℝ :=
  let cost := |delta|
  let current_pose : Pose := ⟨0, 0, 0⟩
  let rollout_pose_angle := LaserWanderer.rollout_to_laser_angle lw rollout_pose
  let aLo := min rollout_pose_angle.1 rollout_pose_angle.2
  let aHi := max rollout_pose_angle.1 rollout_pose_angle.2
  let rollout_pose_distance :=
    Real.sqrt ((current_pose.x - rollout_pose.x) ^ 2 + (current_pose.y - rollout_pose.y) ^ 2)
  if aLo < laser_msg.angle_min ∨ aHi > laser_msg.angle_max then
    some (cost + MAX_PENALTY)
  else
    let i1 := pyInt ((aLo - laser_msg.angle_min) / laser_msg.angle_increment)
    let i2 := pyInt ((aHi - laser_msg.angle_min) / laser_msg.angle_increment)
    let angle_index := intRange (min i1 i2) (max i1 i2)
    match LaserWanderer.countTooClose lw laser_msg rollout_pose_distance angle_index with
    | none => none
    | some too_close_count =>
      some (LaserWanderer.hazard_update cost angle_index.length too_close_count)

/-- The inner `for n in range(N)` pass of `wander_cb` at one trajectory
depth: walk the accumulator list, adding
`costFn(deltas[n], rollouts[n][traj_depth], msg)` to the n-th entry; a cost
evaluation raising (`none`) aborts the callback. -/
def addRow (lw : Wanderer) (costFn : ℝ → Pose → Scan → Option ℝ) (msg : Scan)
    (traj_depth : ℕ) : ℕ → List ℝ → Option (List ℝ)
  | _, [] => some []
  | n, c :: rest =>
    match costFn (lw.deltas n) (lw.rollouts n traj_depth) msg with
    | none => none
    | some k =>
      match addRow lw costFn msg traj_depth (n + 1) rest with
      | none => none
      | some updated => some ((c + k) :: updated)

/-- The `while (elapsed < compute_time and traj_depth < T)` loop of
`wander_cb`, identical in both files.  `fuel` is `T - traj_depth`, so the
loop body runs exactly while `traj_depth < T` and the polled elapsed time is
below the budget. -/
def sweep (lw : Wanderer) (costFn : ℝ → Pose → Scan → Option ℝ) (elapsed : ℕ → ℝ)
    (msg : Scan) : ℕ → ℕ → List ℝ → Option (List ℝ)
  | 0, _, delta_costs => some delta_costs
  | fuel + 1, traj_depth, delta_costs =>
    if elapsed traj_depth < lw.compute_time then
      match addRow lw costFn msg traj_depth 0 delta_costs with
      | none => none
      | some updated => sweep lw costFn elapsed msg fuel (traj_depth + 1) updated
    else some delta_costs

/-- `LaserWanderer.wander_cb`, identical in both files up to the cost
function: initialise `delta_costs = np.zeros(N)`, run the budgeted depth
sweep, then take `np.argmin` and publish the corresponding steering angle
with the configured speed.  `none` models a scan cycle in which no command
is published (an exception aborts the callback before `cmd_pub.publish`). -/
def wcb (lw : Wanderer) (costFn : ℝ → Pose → Scan → Option ℝ) (elapsed : ℕ → ℝ)
    (msg : Scan) : Option DriveCmd :=
  match sweep lw costFn elapsed msg lw.T 0 (List.replicate lw.N 0) with
  | none => none
  | some delta_costs =>
    match np_argmin delta_costs with
    | none => none
    | some min_delta_index => some ⟨lw.deltas min_delta_index, lw.speed⟩

/-- `wander_cb` of `car_laser_wanderer.py` (single-ray cost). -/
def CarLaserWanderer.wander_cb (lw : Wanderer) (elapsed : ℕ → ℝ) (msg : Scan) :
    Option DriveCmd :=
  wcb lw (CarLaserWanderer.compute_cost lw) elapsed msg

/-- `wander_cb` of `laser_wanderer.py` (footprint-interval cost). -/
def LaserWanderer.wander_cb (lw : Wanderer) (elapsed : ℕ → ℝ) (msg : Scan) :
    Option DriveCmd :=
  wcb lw (LaserWanderer.compute_cost lw) elapsed msg

/-- The two-argument arctangent the specification requires for bearings
(`atan2(y, x)`), written out by quadrant. -/
def atan2 (y x : ℝ) : ℝ :=
  if 0 < x then Real.arctan (y / x)
  else if x < 0 then
    (if 0 ≤ y then Real.arctan (y / x) + Real.pi else Real.arctan (y / x) - Real.pi)
  else
    (if 0 < y then Real.pi / 2 else if y < 0 then -(Real.pi / 2) else 0)

/-- A rollout pose one metre straight ahead of the vehicle, used as a
concrete evaluation point. -/
def poseW : Pose := ⟨1, 0, 0⟩

/-- A concrete scan: field of view `[-1, 1]` rad, increment `1` rad, two
finite beams of `100` m. -/
def msgW : Scan := ⟨-1, 1, 1, [some 100, some 100]⟩

/-- The scan `msgW` with both beams replaced by NaN/Infinity readings. -/
def msgN : Scan := ⟨-1, 1, 1, [none, none]⟩

/-- A concrete scan exercising the unclamped beam-index computation:
field of view `[-1, 0]`, increment `1/4`, and only 4 beams, so a bearing of
`0 = angle_max` yields index `4`, one past the end of `ranges`. -/
def msgOob : Scan := ⟨-1, 0, 1 / 4, [some 5, some 5, some 5, some 5]⟩

/-- A concrete wanderer: one trajectory (`N = 1`) of horizon `T = 1` whose
single pose is `poseW`, steering angle `1`, `compute_time = 0`,
`laser_offset = 0`, footprint `car_length = car_width = 2`. -/
def lwW : Wanderer :=
  { N := 1, T := 1, rollouts := fun _ _ => poseW, deltas := fun _ => 1, speed := 1
    compute_time := 0, laser_offset := 0, car_length := 2, car_width := 2
    detection_thresh := 1 / 2 }

/-- The wanderer `lwW` with an empty trajectory library (`N = 0`). -/
def lwEmpty : Wanderer :=
  { N := 0, T := 1, rollouts := fun _ _ => poseW, deltas := fun _ => 1, speed := 1
    compute_time := 1, laser_offset := 0, car_length := 2, car_width := 2
    detection_thresh := 1 / 2 }

/-- A wanderer with two trajectories, ascending deltas `-1 + n`, and horizon
`T = 0`, so both accumulated costs stay `0` and tie. -/
def lwTie : Wanderer :=
  { N := 2, T := 0, rollouts := fun _ _ => poseW, deltas := fun n => -1 + (n : ℝ), speed := 1
    compute_time := 1, laser_offset := 0, car_length := 2, car_width := 2
    detection_thresh := 1 / 2 }

end

theorem addRow_nil (lw : Wanderer) (f : ℝ → Pose → Scan → Option ℝ) (msg : Scan)
    (d n : ℕ) : addRow lw f msg d n [] = some [] := rfl

theorem sweep_nil (lw : Wanderer) (f : ℝ → Pose → Scan → Option ℝ) (e : ℕ → ℝ) (msg : Scan) :
    ∀ fuel depth, sweep lw f e msg fuel depth [] = some [] := by
  intro fuel
  induction fuel with
  | zero => intro d; rfl
  | succ n ih =>
    intro d
    unfold sweep
    by_cases h : e d < lw.compute_time
    · rw [if_pos h]
      exact ih (d + 1)
    · rw [if_neg h]

theorem sweep_budget_spent (lw : Wanderer) (f : ℝ → Pose → Scan → Option ℝ) (e : ℕ → ℝ)
    (msg : Scan) (d : ℕ) (costs : List ℝ) (h : ¬ e d < lw.compute_time) :
    ∀ fuel, sweep lw f e msg fuel d costs = some costs := by
  intro fuel
  cases fuel with
  | zero => rfl
  | succ n =>
    unfold sweep
    rw [if_neg h]

theorem np_argmin_ne_none (x : ℝ) (xs : List ℝ) : np_argmin (x :: xs) ≠ none := by
  unfold np_argmin
  intro hcon
  split at hcon
  · exact Option.noConfusion hcon
  · split at hcon <;> exact Option.noConfusion hcon

theorem np_argmin_replicate_zero :
    ∀ n : ℕ, 0 < n → np_argmin (List.replicate n (0 : ℝ)) = some 0 := by
  intro n
  induction n with
  | zero => intro h; omega
  | succ m ih =>
    intro _
    rw [List.replicate_succ]
    unfold np_argmin
    cases m with
    | zero => simp [np_argmin]
    | succ k =>
      rw [ih (Nat.succ_pos k)]
      simp [List.replicate_succ]

theorem np_argmin_spec : ∀ (l : List ℝ) (m : ℕ), np_argmin l = some m →
    m < l.length ∧ (∀ i, i < l.length → l.getD m 0 ≤ l.getD i 0) ∧
    (∀ j, j < m → l.getD m 0 < l.getD j 0) := by
  intro l
  induction l with
  | nil => intro m h; simp [np_argmin] at h
  | cons x xs ih =>
    intro m h
    unfold np_argmin at h
    cases hxs : np_argmin xs with
    | none =>
      rw [hxs] at h
      simp only [Option.some.injEq] at h
      subst h
      have hnil : xs = [] := by
        cases xs with
        | nil => rfl
        | cons y ys => exact absurd hxs (np_argmin_ne_none y ys)
      subst hnil
      refine ⟨by simp, ?_, ?_⟩
      · intro i hi
        have : i = 0 := by simpa using Nat.lt_one_iff.mp (by simpa using hi)
        subst this
        exact le_refl _
      · intro j hj; omega
    | some j =>
      rw [hxs] at h
      dsimp only at h
      obtain ⟨hjlen, hmin, hfirst⟩ := ih j hxs
      by_cases hle : x ≤ xs.getD j 0
      · rw [if_pos hle] at h
        simp only [Option.some.injEq] at h
        subst h
        refine ⟨Nat.succ_pos _, ?_, ?_⟩
        · intro i hi
          cases i with
          | zero => simp
          | succ i2 =>
            rw [List.getD_cons_zero, List.getD_cons_succ]
            exact hle.trans (hmin i2 (by simpa using hi))
        · intro j2 hj2; omega
      · rw [if_neg hle] at h
        simp only [Option.some.injEq] at h
        subst h
        push_neg at hle
        refine ⟨by simpa using Nat.succ_lt_succ hjlen, ?_, ?_⟩
        · intro i hi
          cases i with
          | zero =>
            rw [List.getD_cons_succ, List.getD_cons_zero]
            exact hle.le
          | succ i2 =>
            rw [List.getD_cons_succ, List.getD_cons_succ]
            exact hmin i2 (by simpa using hi)
        · intro j2 hj2
          cases j2 with
          | zero =>
            rw [List.getD_cons_succ, List.getD_cons_zero]
            exact hle
          | succ j3 =>
            rw [List.getD_cons_succ, List.getD_cons_succ]
            exact hfirst j3 (by omega)

theorem wcb_eq_of_sweep (lw : Wanderer) (f : ℝ → Pose → Scan → Option ℝ) (e : ℕ → ℝ)
    (msg : Scan) (costs : List ℝ) (m : ℕ)
    (hs : sweep lw f e msg lw.T 0 (List.replicate lw.N 0) = some costs)
    (hm : np_argmin costs = some m) :
    wcb lw f e msg = some ⟨lw.deltas m, lw.speed⟩ := by
  unfold wcb
  rw [hs]
  dsimp only
  rw [hm]

theorem posangle_origin_poseW : CarLaserWanderer.posangle ⟨0, 0, 0⟩ poseW = 0 := by
  simp [CarLaserWanderer.posangle, poseW, Real.arctan_zero]

theorem singleRay_eval (lw : Wanderer) (hoff : lw.laser_offset = 0) (d : ℝ) :
    CarLaserWanderer.compute_cost lw d poseW msgW = some |d| := by
  have hang : CarLaserWanderer.posangle ⟨0, 0, 0⟩ ⟨1, 0, 0⟩ = 0 := by
    simp [CarLaserWanderer.posangle, Real.arctan_zero]
  simp only [CarLaserWanderer.compute_cost, msgW, poseW, hoff]
  rw [hang]
  norm_num [pyInt, pyIndex, Real.sqrt_one, Int.floor_one]

theorem arctan_half_pos : 0 < Real.arctan (1 / 2) := by
  rw [← Real.arctan_zero]
  exact Real.arctan_strictMono (by norm_num)

theorem arctan_half_lt_one : Real.arctan (1 / 2) < 1 := by
  have h1 : Real.arctan (1 / 2) < Real.arctan 1 := Real.arctan_strictMono (by norm_num)
  rw [Real.arctan_one] at h1
  have h2 : Real.pi < 4 := Real.pi_lt_four
  linarith

theorem footprint_corners :
    LaserWanderer.rollout_to_laser_angle lwW poseW =
      (Real.arctan (1 / 2), Real.arctan (-(1 / 2))) := by
  unfold LaserWanderer.rollout_to_laser_angle lwW poseW
  norm_num [Real.cos_zero, Real.sin_zero]

theorem footprint_count_eval :
    LaserWanderer.countTooClose lwW msgW 1 [0, 1] = some 0 := by
  norm_num [LaserWanderer.countTooClose, pyIndex, msgW, lwW]

theorem footprint_eval (d : ℝ) : LaserWanderer.compute_cost lwW d poseW msgW = some |d| := by
  have hpos := arctan_half_pos
  have hlt := arctan_half_lt_one
  have hneg : Real.arctan (-(1 / 2)) = -Real.arctan (1 / 2) := Real.arctan_neg _
  have hmin : min (Real.arctan (1 / 2)) (Real.arctan (-(1 / 2))) = -Real.arctan (1 / 2) := by
    rw [hneg]
    exact min_eq_right (by linarith)
  have hmax : max (Real.arctan (1 / 2)) (Real.arctan (-(1 / 2))) = Real.arctan (1 / 2) := by
    rw [hneg]
    exact max_eq_left (by linarith)
  have hcond : ¬(-Real.arctan (1 / 2) < msgW.angle_min ∨
      Real.arctan (1 / 2) > msgW.angle_max) := by
    simp only [msgW]
    push_neg
    constructor <;> linarith
  have hi1 : pyInt ((-Real.arctan (1 / 2) - msgW.angle_min) / msgW.angle_increment) = 0 := by
    have harg : (-Real.arctan (1 / 2) - msgW.angle_min) / msgW.angle_increment
        = 1 - Real.arctan (1 / 2) := by
      simp only [msgW]
      ring
    rw [harg]
    unfold pyInt
    rw [if_pos (by linarith)]
    rw [Int.floor_eq_zero_iff]
    exact Set.mem_Ico.mpr ⟨by linarith, by linarith⟩
  have hi2 : pyInt ((Real.arctan (1 / 2) - msgW.angle_min) / msgW.angle_increment) = 1 := by
    have harg : (Real.arctan (1 / 2) - msgW.angle_min) / msgW.angle_increment
        = 1 + Real.arctan (1 / 2) := by
      simp only [msgW]
      ring
    rw [harg]
    unfold pyInt
    rw [if_pos (by linarith)]
    exact Int.floor_eq_iff.mpr ⟨by push_cast; linarith, by push_cast; linarith⟩
  have hdist : Real.sqrt (((0 : ℝ) - poseW.x) ^ 2 + ((0 : ℝ) - poseW.y) ^ 2) = 1 := by
    norm_num [poseW]
  simp only [LaserWanderer.compute_cost, footprint_corners]
  rw [hmin, hmax, if_neg hcond, hi1, hi2]
  have hrange : intRange (min (0 : ℤ) 1) (max (0 : ℤ) 1) = [0, 1] := rfl
  rw [hrange, hdist, footprint_count_eval]
  norm_num [LaserWanderer.hazard_update, DETECTION_THRESH, MAX_PENALTY]


/-- Claim C9: for `delta = 0`, any speed and `dt`, positive wheelbase, and a
pose with `theta` in `[0, 2*pi)`, `kinematic_model_step` keeps `theta`
unchanged and advances the position by exactly `speed*dt` along the current
heading. -/
theorem zero_steering_step (pose : Pose) (v dt L : ℝ) (hL : 0 < L)
    (h1 : 0 ≤ pose.theta) (h2 : pose.theta < 2 * Real.pi) :
    kinematic_model_step pose ⟨v, 0, dt⟩ L =
      ⟨pose.x + v * Real.cos pose.theta * dt, pose.y + v * Real.sin pose.theta * dt,
        pose.theta⟩ := by
  have hB : Real.arctan (0.5 * Real.tan 0) = 0 := by
    rw [Real.tan_zero, mul_zero, Real.arctan_zero]
  unfold kinematic_model_step
  simp only [hB, mul_zero, Real.sin_zero, zero_mul, add_zero, eq_self_iff_true, if_true]
  simp only [if_neg (not_lt.mpr h1), if_neg (not_lt.mpr (le_of_lt h2))]

/-- Witness for C9: a concrete zero-steering step from the origin moves one
metre straight ahead. -/
theorem zero_steering_step_wit :
    kinematic_model_step ⟨0, 0, 0⟩ ⟨1, 0, 1⟩ 1 = ⟨1, 0, 0⟩ := by
  rw [zero_steering_step ⟨0, 0, 0⟩ 1 1 1 one_pos (le_refl 0) (by positivity)]
  norm_num [Real.cos_zero, Real.sin_zero]

/-- Claim C4 counterexample: at `theta = 2*pi - 1/2` with
`delta = arctan 2`, `speed = dt = wheelbase = 1` (so
`sin(2*beta) = 1` and the raw heading is `2*pi + 1/2 > 2*pi`), the code
returns `pi + 1/2` — it subtracts only `pi` above `2*pi` — while the
claimed single modulo-`2*pi` wrap yields `1/2`.  The input `theta` lies in
`[0, 2*pi)` as the claim requires. -/
theorem theta_wrap_asymmetry :
    (kinematic_model_step ⟨0, 0, 2 * Real.pi - 1 / 2⟩ ⟨1, Real.arctan 2, 1⟩ 1).theta
        = Real.pi + 1 / 2 ∧
    toIcoMod Real.two_pi_pos 0
        ((2 * Real.pi - 1 / 2) +
          1 / 1 * Real.sin (2 * Real.arctan (0.5 * Real.tan (Real.arctan 2))) * 1)
        = 1 / 2 ∧
    Real.pi + 1 / 2 ≠ 1 / 2 ∧
    0 ≤ 2 * Real.pi - 1 / 2 ∧ 2 * Real.pi - 1 / 2 < 2 * Real.pi := by
  have hB : Real.arctan (0.5 * Real.tan (Real.arctan 2)) = Real.pi / 4 := by
    rw [Real.tan_arctan]
    norm_num [Real.arctan_one]
  have hsin : Real.sin (2 * Real.arctan (0.5 * Real.tan (Real.arctan 2))) = 1 := by
    rw [hB, show (2 : ℝ) * (Real.pi / 4) = Real.pi / 2 by ring, Real.sin_pi_div_two]
  have hpi := Real.pi_gt_three
  refine ⟨?_, ?_, by intro hcon; linarith, by linarith, by linarith⟩
  · unfold kinematic_model_step
    simp only [hsin, apply_ite Pose.theta, ite_self]
    split_ifs with hlt hgt
    · exfalso
      norm_num at hlt
      linarith
    · norm_num
      linarith
    · exfalso
      norm_num at hgt
      linarith
  · rw [show ((2 * Real.pi - 1 / 2) +
        1 / 1 * Real.sin (2 * Real.arctan (0.5 * Real.tan (Real.arctan 2))) * 1)
        = 1 / 2 + 2 * Real.pi by rw [hsin]; ring]
    rw [toIcoMod_add_right]
    exact (toIcoMod_eq_self Real.two_pi_pos).mpr ⟨by norm_num, by norm_num; linarith⟩

/-- Claim C3 counterexample: both bearing computations use the one-argument
arctangent of a coordinate ratio.  For the rollout pose `(-1, 1)` (negative
x-component) `_compute_pose_angle` returns `arctan(1/(-1)) = -pi/4` while
the two-argument bearing is `atan2(1, -1) = 3*pi/4`; for a rollout pose
rotated by `pi` the front-left footprint corner of `lwW` lands at
`(-1, -1)` and `rollout_to_laser_angle` returns `arctan 1 = pi/4` while
`atan2` of the same corner is `-3*pi/4`. -/
theorem bearing_ratio_not_atan2 :
    CarLaserWanderer.posangle ⟨0, 0, 0⟩ ⟨-1, 1, 0⟩ = -(Real.pi / 4) ∧
    atan2 1 (-1) = 3 * Real.pi / 4 ∧
    CarLaserWanderer.posangle ⟨0, 0, 0⟩ ⟨-1, 1, 0⟩ ≠ atan2 1 (-1) ∧
    (LaserWanderer.rollout_to_laser_angle lwW ⟨0, 0, Real.pi⟩).1 = Real.pi / 4 ∧
    atan2 (-1) (-1) = -(3 * Real.pi / 4) ∧
    (LaserWanderer.rollout_to_laser_angle lwW ⟨0, 0, Real.pi⟩).1 ≠ atan2 (-1) (-1) := by
  have hpi := Real.pi_pos
  have e1 : CarLaserWanderer.posangle ⟨0, 0, 0⟩ ⟨-1, 1, 0⟩ = -(Real.pi / 4) := by
    simp only [CarLaserWanderer.posangle]
    rw [show ((1 : ℝ) - 0) / (-1 - 0) = -1 by norm_num]
    rw [show (-1 : ℝ) = -(1 : ℝ) by norm_num, Real.arctan_neg, Real.arctan_one]
  have e2 : atan2 1 (-1) = 3 * Real.pi / 4 := by
    unfold atan2
    rw [if_neg (by norm_num), if_pos (by norm_num), if_pos (by norm_num)]
    rw [show ((1 : ℝ)) / (-1) = -1 by norm_num]
    rw [show (-1 : ℝ) = -(1 : ℝ) by norm_num, Real.arctan_neg, Real.arctan_one]
    ring
  have e4 : (LaserWanderer.rollout_to_laser_angle lwW ⟨0, 0, Real.pi⟩).1 = Real.pi / 4 := by
    unfold LaserWanderer.rollout_to_laser_angle lwW
    norm_num [Real.cos_pi, Real.sin_pi, Real.arctan_one]
  have e5 : atan2 (-1) (-1) = -(3 * Real.pi / 4) := by
    unfold atan2
    rw [if_neg (by norm_num), if_pos (by norm_num), if_neg (by norm_num)]
    rw [show ((-1 : ℝ)) / (-1) = 1 by norm_num, Real.arctan_one]
    ring
  refine ⟨e1, e2, ?_, e4, e5, ?_⟩
  · rw [e1, e2]
    intro hcon
    linarith
  · rw [e4, e5]
    intro hcon
    linarith

/-- Claim C1 (amended): with `compute_time = 0` and a nonnegative elapsed
time at the first budget check, the `wander_cb` loop of both files performs
ZERO depth passes — the accumulators remain the zero vector — and the
callback nevertheless selects the argmin of that zero vector (index 0) and
publishes a well-formed command carrying the first delta. -/
theorem anytime_zero_budget (lw : Wanderer) (elapsed : ℕ → ℝ) (msg : Scan)
    (h0 : 0 ≤ elapsed 0) (hct : lw.compute_time = 0) (hN : 0 < lw.N) :
    sweep lw (CarLaserWanderer.compute_cost lw) elapsed msg lw.T 0 (List.replicate lw.N 0)
        = some (List.replicate lw.N 0) ∧
    CarLaserWanderer.wander_cb lw elapsed msg = some ⟨lw.deltas 0, lw.speed⟩ ∧
    sweep lw (LaserWanderer.compute_cost lw) elapsed msg lw.T 0 (List.replicate lw.N 0)
        = some (List.replicate lw.N 0) ∧
    LaserWanderer.wander_cb lw elapsed msg = some ⟨lw.deltas 0, lw.speed⟩ := by
  have hstop : ¬ elapsed 0 < lw.compute_time := by
    rw [hct]
    exact not_lt.mpr h0
  have hs1 := sweep_budget_spent lw (CarLaserWanderer.compute_cost lw) elapsed msg 0
    (List.replicate lw.N 0) hstop lw.T
  have hs2 := sweep_budget_spent lw (LaserWanderer.compute_cost lw) elapsed msg 0
    (List.replicate lw.N 0) hstop lw.T
  have hargm := np_argmin_replicate_zero lw.N hN
  exact ⟨hs1, wcb_eq_of_sweep lw _ elapsed msg _ 0 hs1 hargm,
    hs2, wcb_eq_of_sweep lw _ elapsed msg _ 0 hs2 hargm⟩

/-- Witness for (amended) C1 at the concrete wanderer `lwW`
(`compute_time = 0`, one trajectory): both callbacks still publish. -/
theorem anytime_zero_budget_wit :
    CarLaserWanderer.wander_cb lwW (fun _ => 0) msgW = some ⟨lwW.deltas 0, lwW.speed⟩ ∧
    LaserWanderer.wander_cb lwW (fun _ => 0) msgW = some ⟨lwW.deltas 0, lwW.speed⟩ := by
  have h := anytime_zero_budget lwW (fun _ => 0) msgW (le_refl 0) rfl Nat.one_pos
  exact ⟨h.2.1, h.2.2.2⟩

/-- Claim C1 counterexample: with `compute_time = 0` the loop does NOT
complete depth 0.  For `lwW` (one trajectory of horizon 1 whose depth-0
cost under the scan `msgW` is `1`), the accumulator vector after the loop
is `[0]`, not `[0 + 1]` — the depth-0 cost was never added. -/
theorem anytime_zero_budget_cex :
    sweep lwW (CarLaserWanderer.compute_cost lwW) (fun _ => 0) msgW lwW.T 0
        (List.replicate lwW.N 0) = some [0] ∧
    CarLaserWanderer.compute_cost lwW (lwW.deltas 0) (lwW.rollouts 0 0) msgW = some 1 ∧
    sweep lwW (CarLaserWanderer.compute_cost lwW) (fun _ => 0) msgW lwW.T 0
        (List.replicate lwW.N 0) ≠ some [0 + 1] := by
  have hstop : ¬ (fun _ => (0 : ℝ)) 0 < lwW.compute_time := by
    norm_num [lwW]
  have hs := sweep_budget_spent lwW (CarLaserWanderer.compute_cost lwW) (fun _ => 0) msgW 0
    (List.replicate lwW.N 0) hstop lwW.T
  have hcost : CarLaserWanderer.compute_cost lwW (lwW.deltas 0) (lwW.rollouts 0 0) msgW
      = some 1 := by
    have h := singleRay_eval lwW rfl 1
    rw [abs_one] at h
    exact h
  refine ⟨hs, hcost, ?_⟩
  intro hcon
  have h3 : ([0] : List ℝ) = [0 + 1] := Option.some_inj.mp (hs.symm.trans hcon)
  norm_num at h3

/-- Claim C5: with an empty trajectory library (`N = 0`) the callback
publishes nothing for that scan cycle: the accumulator array is empty, the
sweep leaves it empty, and `np.argmin` of an empty array raises, aborting
the callback before `cmd_pub.publish` — for any cost function, hence for
both files. -/
theorem empty_library_no_publish (lw : Wanderer) (costFn : ℝ → Pose → Scan → Option ℝ)
    (elapsed : ℕ → ℝ) (msg : Scan) (hN : lw.N = 0) :
    wcb lw costFn elapsed msg = none := by
  unfold wcb
  rw [hN]
  rw [show List.replicate 0 (0 : ℝ) = [] from rfl]
  rw [sweep_nil lw costFn elapsed msg lw.T 0]
  simp [np_argmin]

/-- Witness for C5: the concrete empty-library wanderer `lwEmpty` publishes
nothing under either cost policy. -/
theorem empty_library_no_publish_wit :
    wcb lwEmpty (CarLaserWanderer.compute_cost lwEmpty) (fun _ => 0) msgW = none ∧
    wcb lwEmpty (LaserWanderer.compute_cost lwEmpty) (fun _ => 0) msgW = none :=
  ⟨empty_library_no_publish lwEmpty _ _ msgW rfl,
   empty_library_no_publish lwEmpty _ _ msgW rfl⟩

/-- Claim C10: when the accumulated cost vector has its minimum attained at
index `m` as returned by `np.argmin`, the callback publishes the steering
angle `deltas[m]`; `m` is the FIRST index attaining the minimum (every
earlier index has strictly larger cost), and under the library's ascending
`np.arange` delta ordering `deltas[m]` is the most negative delta among all
tied indices.  Stated for the loop with an arbitrary cost function, hence
for both files' `wander_cb`. -/
theorem argmin_tie_break (lw : Wanderer) (costFn : ℝ → Pose → Scan → Option ℝ)
    (elapsed : ℕ → ℝ) (msg : Scan) (costs : List ℝ) (m : ℕ)
    (hs : sweep lw costFn elapsed msg lw.T 0 (List.replicate lw.N 0) = some costs)
    (hm : np_argmin costs = some m) :
    wcb lw costFn elapsed msg = some ⟨lw.deltas m, lw.speed⟩ ∧
    (∀ i, i < costs.length → costs.getD m 0 ≤ costs.getD i 0) ∧
    (∀ j, j < m → costs.getD m 0 < costs.getD j 0) ∧
    ∀ dmin dincr : ℝ, 0 < dincr → (∀ n, lw.deltas n = dmin + dincr * n) →
      ∀ i, i < costs.length → costs.getD i 0 = costs.getD m 0 →
        lw.deltas m ≤ lw.deltas i := by
  obtain ⟨hlen, hminp, hfirst⟩ := np_argmin_spec costs m hm
  refine ⟨wcb_eq_of_sweep lw costFn elapsed msg costs m hs hm, hminp, hfirst, ?_⟩
  intro dmin dincr hpos hda i hi htie
  have hmi : m ≤ i := by
    by_contra hcon
    push_neg at hcon
    have hlt := hfirst i hcon
    rw [htie] at hlt
    exact lt_irrefl _ hlt
  have hcast : (m : ℝ) ≤ (i : ℝ) := Nat.cast_le.mpr hmi
  have hmul := mul_le_mul_of_nonneg_left hcast (le_of_lt hpos)
  rw [hda m, hda i]
  linarith

/-- Witness for C10: for `lwTie` (two trajectories, horizon 0, so the cost
vector is the tied `[0, 0]`) the callback publishes `deltas[0] = -1`, the
smaller of the two tied deltas. -/
theorem argmin_tie_break_wit :
    wcb lwTie (CarLaserWanderer.compute_cost lwTie) (fun _ => 0) msgW
        = some ⟨lwTie.deltas 0, lwTie.speed⟩ ∧
    lwTie.deltas 0 ≤ lwTie.deltas 1 := by
  have hm : np_argmin [(0 : ℝ), 0] = some 0 := by
    simp [np_argmin]
  have h := argmin_tie_break lwTie (CarLaserWanderer.compute_cost lwTie) (fun _ => 0) msgW
    [0, 0] 0 rfl hm
  refine ⟨h.1, ?_⟩
  exact h.2.2.2 (-1) 1 one_pos
    (fun n => by show (-1 : ℝ) + (n : ℝ) = -1 + 1 * (n : ℝ); ring)
    1 (by norm_num) (by norm_num)

/-- Claim C2 (refuted — code bug): `compute_cost` never clamps the beam
index.  For the scan `msgOob` (`angle_min = -1 < angle_max = 0`,
`angle_increment = 1/4 > 0`, 4 beams) and the pose `poseW` whose bearing
`0` lies inside `[angle_min, angle_max]`, the computed index is
`4 = len(ranges)` and the read `ranges[4]` raises `IndexError` (modelled:
the evaluator returns `none`). -/
theorem beam_index_unclamped_oob :
    CarLaserWanderer.posangle ⟨0, 0, 0⟩ poseW = 0 ∧
    msgOob.angle_min ≤ 0 ∧ (0 : ℝ) ≤ msgOob.angle_max ∧
    msgOob.angle_min < msgOob.angle_max ∧ 0 < msgOob.angle_increment ∧
    pyInt ((0 - msgOob.angle_min) / msgOob.angle_increment) = 4 ∧
    msgOob.ranges.length = 4 ∧
    CarLaserWanderer.compute_cost lwW 0 poseW msgOob = none := by
  have hang := posangle_origin_poseW
  have h4 : ((0 : ℝ) - msgOob.angle_min) / msgOob.angle_increment = 4 := by
    simp only [msgOob]
    norm_num
  have hidx : pyInt ((0 - msgOob.angle_min) / msgOob.angle_increment) = 4 := by
    rw [h4]
    unfold pyInt
    rw [if_pos (by norm_num)]
    exact Int.floor_eq_iff.mpr ⟨by norm_num, by norm_num⟩
  refine ⟨hang, by norm_num [msgOob], by norm_num [msgOob], by norm_num [msgOob],
    by norm_num [msgOob], hidx, rfl, ?_⟩
  simp only [CarLaserWanderer.compute_cost]
  rw [hang]
  rw [if_neg (show ¬((0 : ℝ) < msgOob.angle_min ∨ (0 : ℝ) > msgOob.angle_max) by
    simp only [msgOob]; norm_num)]
  rw [hidx]
  rfl

/-- Claim C6: the footprint-interval penalty stage of
`LaserWanderer.compute_cost`: with `k >= 1` beams checked and `c <= k` of
them too close, it adds `MAX_PENALTY` when `k = 1` and `c = 1`; otherwise
adds `MAX_PENALTY` when `c/k >= DETECTION_THRESH`; otherwise adds the
graded penalty `(c/k) * 30`, which differs from `MAX_PENALTY`; and in
particular `k = 4`, `c = 2` (fraction `1/2 >= 1/2`) yields `MAX_PENALTY`. -/
theorem footprint_hazard_policy (cost : ℝ) (k c : ℕ) (hk : 1 ≤ k) (hck : c ≤ k) :
    (k = 1 → c = 1 → LaserWanderer.hazard_update cost k c = cost + MAX_PENALTY) ∧
    (¬(k = 1 ∧ 0 < c) → DETECTION_THRESH ≤ (c : ℝ) / (k : ℝ) →
      LaserWanderer.hazard_update cost k c = cost + MAX_PENALTY) ∧
    (¬(k = 1 ∧ 0 < c) → (c : ℝ) / (k : ℝ) < DETECTION_THRESH →
      LaserWanderer.hazard_update cost k c = cost + (c : ℝ) / (k : ℝ) * 30 ∧
      cost + (c : ℝ) / (k : ℝ) * 30 ≠ cost + MAX_PENALTY) ∧
    LaserWanderer.hazard_update cost 4 2 = cost + MAX_PENALTY := by
  refine ⟨?_, ?_, ?_, ?_⟩
  · intro h1 h2
    subst h1
    subst h2
    simp only [LaserWanderer.hazard_update]
    rw [if_pos (by norm_num)]
  · intro hno hge
    simp only [LaserWanderer.hazard_update]
    rw [if_neg hno, if_pos hge]
  · intro hno hlt
    simp only [LaserWanderer.hazard_update]
    rw [if_neg hno, if_neg (not_le.mpr hlt)]
    refine ⟨rfl, ?_⟩
    intro hcon
    have heq : (c : ℝ) / (k : ℝ) * 30 = MAX_PENALTY := by linarith
    rw [DETECTION_THRESH] at hlt
    rw [MAX_PENALTY] at heq
    have h30 := mul_lt_mul_of_pos_right hlt (show (0 : ℝ) < 30 by norm_num)
    linarith
  · simp only [LaserWanderer.hazard_update]
    rw [if_neg (by norm_num), if_pos (by norm_num [DETECTION_THRESH])]

/-- Witness for C6 at the claim's own instance: four beams checked, two too
close, threshold `1/2` — the full `MAX_PENALTY` is applied, not the graded
penalty. -/
theorem footprint_hazard_policy_wit :
    LaserWanderer.hazard_update 0 4 2 = 0 + MAX_PENALTY :=
  (footprint_hazard_policy 0 4 2 (by norm_num) (by norm_num)).2.2.2

/-- Claim C7: a NaN/Infinity beam never triggers a penalty.  Single-ray
policy: when the bearing is inside the field of view and the selected beam
reads non-finite (`some none`), `compute_cost` returns exactly the baseline
`|delta|` — no `MAX_PENALTY`.  Footprint policy: a non-finite beam leaves
the too-close count unchanged. -/
theorem nonfinite_beam_no_penalty :
    (∀ (lw : Wanderer) (delta : ℝ) (pose : Pose) (msg : Scan),
      ¬(CarLaserWanderer.posangle ⟨0, 0, 0⟩ pose < msg.angle_min ∨
        CarLaserWanderer.posangle ⟨0, 0, 0⟩ pose > msg.angle_max) →
      pyIndex msg.ranges
          (pyInt ((CarLaserWanderer.posangle ⟨0, 0, 0⟩ pose - msg.angle_min) /
            msg.angle_increment)) = some none →
      CarLaserWanderer.compute_cost lw delta pose msg = some |delta|) ∧
    (∀ (lw : Wanderer) (msg : Scan) (dist : ℝ) (idx : ℤ) (rest : List ℤ) (c : ℕ),
      pyIndex msg.ranges idx = some none →
      LaserWanderer.countTooClose lw msg dist rest = some c →
      LaserWanderer.countTooClose lw msg dist (idx :: rest) = some c) := by
  constructor
  · intro lw delta pose msg hfov hbeam
    simp only [CarLaserWanderer.compute_cost]
    rw [if_neg hfov, hbeam]
  · intro lw msg dist idx rest c hbeam hrest
    unfold LaserWanderer.countTooClose
    rw [hbeam]
    dsimp only
    rw [hrest]

/-- Witness for C7: under the all-NaN scan `msgN`, the single-ray cost of
`poseW` is exactly the baseline, and a checked NaN beam contributes zero to
the footprint too-close count. -/
theorem nonfinite_beam_no_penalty_wit :
    CarLaserWanderer.compute_cost lwW 1 poseW msgN = some |(1 : ℝ)| ∧
    LaserWanderer.countTooClose lwW msgN 1 [0] = some 0 := by
  have hang : CarLaserWanderer.posangle ⟨0, 0, 0⟩ poseW = 0 := posangle_origin_poseW
  constructor
  · exact nonfinite_beam_no_penalty.1 lwW 1 poseW msgN
      (by rw [hang]; simp only [msgN]; norm_num)
      (by rw [hang]; simp only [msgN]; norm_num [pyInt, pyIndex, Int.floor_one])
  · exact nonfinite_beam_no_penalty.2 lwW msgN 1 0 [] 0 rfl rfl

/-- The footprint penalty stage never decreases the accumulated cost. -/
theorem hazard_update_ge (cost : ℝ) (k c : ℕ) :
    cost ≤ LaserWanderer.hazard_update cost k c := by
  have h0 : (0 : ℝ) ≤ (c : ℝ) / (k : ℝ) :=
    div_nonneg (Nat.cast_nonneg c) (Nat.cast_nonneg k)
  simp only [LaserWanderer.hazard_update]
  split_ifs with h1 h2
  · norm_num [MAX_PENALTY]
  · norm_num [MAX_PENALTY]
  · nlinarith

/-- Claim C8: the cost floor.  Whenever either evaluator returns a cost `c`
(i.e. does not raise), `c >= |delta|`: the baseline is `|delta|` and every
penalty term added to it is nonnegative. -/
theorem cost_floor (lw : Wanderer) (delta : ℝ) (pose : Pose) (msg : Scan) (c : ℝ) :
    (CarLaserWanderer.compute_cost lw delta pose msg = some c → |delta| ≤ c) ∧
    (LaserWanderer.compute_cost lw delta pose msg = some c → |delta| ≤ c) := by
  have hmax : (0 : ℝ) ≤ MAX_PENALTY := by norm_num [MAX_PENALTY]
  constructor
  · intro h
    simp only [CarLaserWanderer.compute_cost] at h
    split at h
    · injection h with h2
      linarith
    · split at h
      · exact absurd h (by simp)
      · injection h with h2
        linarith
      · split at h
        · injection h with h2
          linarith
        · injection h with h2
          linarith
  · intro h
    simp only [LaserWanderer.compute_cost] at h
    split at h
    · injection h with h2
      linarith
    · split at h
      · exact absurd h (by simp)
      · injection h with h2
        rw [← h2]
        exact hazard_update_ge _ _ _

/-- Witness for C8: concrete evaluations of both evaluators at `poseW` under
`msgW` return exactly the baseline, so the floor holds with equality. -/
theorem cost_floor_wit : |(1 : ℝ)| ≤ 1 ∧ |(2 : ℝ)| ≤ 2 := by
  constructor
  · exact (cost_floor lwW 1 poseW msgW 1).1 (by rw [singleRay_eval lwW rfl 1, abs_one])
  · exact (cost_floor lwW 2 poseW msgW 2).2 (by rw [footprint_eval 2]; norm_num)
